import Mathlib

/-!
Shallow embedding of the storage table / queue / container and data lake
store file resource adapters of terraform-provider-azurerm, together with
theorems about their create / read / exists / delete behaviour and about
the name validators.

The remote side (one storage account with its tables, queues and
containers; one data lake file system) is modelled as an explicit state,
and each adapter is a pure function from that state and the local declared
record to a result, the updated record and the updated remote state.
Outcomes of external calls that are not determined by the modelled state
(transport failures and the like) are supplied as explicit fault
injections, `none` meaning the call behaves normally.
-/

namespace AzureRM

/-- A Go `error` value as produced by the adapters: either an ordinary
formatted message, or the distinct import signal produced by
`tf.ImportAsExistsError(resourceType, id)`. -/
inductive GoError where
  | msg (s : String)
  | importAsExists (resourceType : String) (id : String)
deriving Repr, DecidableEq

/-- True exactly on the distinct `ImportAsExistsError` signal. -/
def isImportAsExistsError : Except GoError Unit → Bool
  | .error (.importAsExists _ _) => true
  | _ => false

/-- A storage table as returned by `QueryTables`. -/
structure Table where
  name : String
deriving Repr, DecidableEq

/-- The descriptive properties of a container returned by `ListContainers`. -/
structure ContainerProps where
  lastModified : String
  leaseStatus : String
  leaseState : String
  leaseDuration : String
deriving Repr, DecidableEq

/-- A blob container as returned by `ListContainers`. -/
structure Container where
  name : String
  properties : ContainerProps
deriving Repr, DecidableEq

/-- The remote state of one storage account: whether the account itself
exists, and the tables, queues and containers it holds (in response
order). -/
structure Backend where
  accountExists : Bool := true
  tables : List Table := []
  queues : List String := []
  containers : List Container := []
deriving Repr, DecidableEq

/-- The local declared record (`schema.ResourceData`) for the storage
resources: the declared fields plus the local identifier (`d.Id()`), and
the computed `properties` map of the container resource. -/
structure ResourceData where
  id : String := ""
  name : String := ""
  resourceGroupName : String := ""
  storageAccountName : String := ""
  containerAccessType : String := "private"
  properties : Option ContainerProps := none
deriving Repr, DecidableEq

/-- Injected outcomes for the external calls an adapter makes; `none`
means the call behaves normally. `resolverErr` is the transport error of
the client resolver, `queryErr` that of the listing / existence query,
`createErr`, `deleteErr` and `permErr` those of the create, delete and
set-permissions calls, and `createAttemptErr n` the outcome of the n-th
`CreateIfNotExists` attempt inside the container creation retry loop. -/
structure Faults where
  resolverErr : Option String := none
  queryErr : Option String := none
  createErr : Option String := none
  deleteErr : Option String := none
  permErr : Option String := none
  createAttemptErr : Nat → Option String := fun _ => none

/-- All external calls behave normally. -/
def noFaults : Faults := {}

/-- The `Storage Account %q Not Found` error returned by the create
adapters when the resolver reports the account missing. -/
def accountNotFoundErr (storageAccountName : String) : GoError :=
  .msg s!"Storage Account \"{storageAccountName}\" Not Found"

/- ## Name validators -/

/-- Character class `[a-z0-9-]`. -/
def isLowerAlnumHyphen (c : Char) : Bool :=
  c.isLower || c.isDigit || c == '-'

/-- Whether a value matches the anchored pattern `[a-z0-9-]+`: non-empty
and every character lowercase alphanumeric or a hyphen. -/
def matchesLowerAlnumHyphenPlus (value : String) : Bool :=
  !value.isEmpty && value.data.all isLowerAlnumHyphen

/-- Whether the pattern `^-` matches: the first character is a hyphen. -/
def startsWithHyphen (value : String) : Bool :=
  value.data.head? == some '-'

/-- Whether the pattern `-$` matches: the last character is a hyphen. -/
def endsWithHyphen (value : String) : Bool :=
  value.data.getLast? == some '-'

/-- Queue validator message for the character-set rule. -/
def queueCharsetMsg (k : String) : String :=
  s!"only lowercase alphanumeric characters and hyphens allowed in \"{k}\""

/-- Queue validator message for the leading-hyphen rule. -/
def queueStartHyphenMsg (k : String) : String :=
  s!"\"{k}\" cannot start with a hyphen"

/-- Queue validator message for the trailing-hyphen rule. -/
def queueEndHyphenMsg (k : String) : String :=
  s!"\"{k}\" cannot end with a hyphen"

/-- Queue validator message for the maximum-length rule. -/
def queueMaxLenMsg (k : String) : String :=
  s!"\"{k}\" cannot be longer than 63 characters"

/-- Queue validator message for the minimum-length rule. -/
def queueMinLenMsg (k : String) : String :=
  s!"\"{k}\" must be at least 3 characters"

/-- `validateArmStorageQueueName` from the source: each rule is checked
independently and appends its own message, so the result lists every
violated rule. Lengths are byte lengths, as in Go. The warnings list of
the Go version is always empty and is omitted. -/
def validateArmStorageQueueName (value k : String) : List String :=
  (if !matchesLowerAlnumHyphenPlus value then [queueCharsetMsg k] else [])
    ++ (if startsWithHyphen value then [queueStartHyphenMsg k] else [])
    ++ (if endsWithHyphen value then [queueEndHyphenMsg k] else [])
    ++ (if value.utf8ByteSize > 63 then [queueMaxLenMsg k] else [])
    ++ (if value.utf8ByteSize < 3 then [queueMinLenMsg k] else [])

/-- Container validator message for the character-set rule. -/
def containerCharsetMsg (k value : String) : String :=
  s!"only lowercase alphanumeric characters and hyphens allowed in \"{k}\": \"{value}\""

/-- Container validator message for the length rule. -/
def containerLengthMsg (k value : String) : String :=
  s!"\"{k}\" must be between 3 and 63 characters: \"{value}\""

/-- Container validator message for the leading-hyphen rule. -/
def containerHyphenMsg (k value : String) : String :=
  s!"\"{k}\" cannot begin with a hyphen: \"{value}\""

/-- Whether a value matches the container name pattern
`^\$root$|^[0-9a-z-]+$`: either the literal `$root` or a non-empty string
of lowercase alphanumerics and hyphens. -/
def containerNameRegexMatches (value : String) : Bool :=
  value == "$root" || matchesLowerAlnumHyphenPlus value

/-- `validateArmStorageContainerName` from the source: character-set rule
(with the `$root` special case in the pattern), combined length rule, and
leading-hyphen rule, each appending its own message. -/
def validateArmStorageContainerName (value k : String) : List String :=
  (if !containerNameRegexMatches value then [containerCharsetMsg k value] else [])
    ++ (if value.utf8ByteSize < 3 || value.utf8ByteSize > 63 then
          [containerLengthMsg k value] else [])
    ++ (if startsWithHyphen value then [containerHyphenMsg k value] else [])

/- ## Bounded retry wrapper for container creation -/

/-- The two flavours of error understood by the host retry helper. -/
inductive RetryError where
  | retryable (msg : String)
  | nonRetryable (msg : String)
deriving Repr, DecidableEq

/-- `checkContainerIsCreated` from the source: one `CreateIfNotExists`
attempt; every failure is wrapped as a retryable error, success yields
`none`. -/
def checkContainerIsCreated (attemptErr : Option String) : Option RetryError :=
  match attemptErr with
  | some e => some (.retryable e)
  | none => none

/-- The timeout error the retry helper reports once its budget elapses. -/
def retryTimeoutMsg : String := "timeout while waiting for state to become success"

/-- Modelled from the spec: `resource.Retry` (a host helper, not part of
the source tree) repeats an idempotent call until it succeeds or a fixed
wall-clock budget elapses; every retryable failure within the budget leads
to another attempt, a non-retryable failure aborts at once, and budget
exhaustion yields a timeout error with no further attempts. Time is
discretised to one attempt per second of budget; `outcome n` is the result
of the n-th attempt and `fuel` the remaining seconds. -/
def resourceRetry (outcome : Nat → Option RetryError) (attempt : Nat) :
    Nat → Except String Unit
  | 0 => .error retryTimeoutMsg
  | fuel + 1 =>
    match outcome attempt with
    | none => .ok ()
    | some (.retryable _) => resourceRetry outcome (attempt + 1) fuel
    | some (.nonRetryable e) => .error e

/-- The fixed budget of the container-creation retry call, in seconds. -/
def retryBudgetSeconds : Nat := 120

/-- `resource.Retry(120*time.Second, checkContainerIsCreated(reference))`
as invoked by the container create adapter; `attemptErr n` is the outcome
of the n-th `CreateIfNotExists` call. -/
def containerCreateRetry (attemptErr : Nat → Option String) : Except String Unit :=
  resourceRetry (fun n => checkContainerIsCreated (attemptErr n)) 0 retryBudgetSeconds

/- ## Storage table adapter

The client resolver `getTableServiceClientForStorageAccount` is modelled
from the spec: it reports `accountExists = false` (not an error) when the
storage account is missing and an error only for transport failures
(injected as `f.resolverErr`). -/

/-- `resourceArmStorageTableRead`: resolve the client (missing account
clears the id and succeeds), list the tables, and look for the declared
name. The Go loop stores a pointer to the reused range variable
(`table = &t`), and after the loop that variable holds the final element
of the response; a successful match therefore writes the final element's
`Name` into the `name` field. A missing table clears the id and
succeeds. -/
def resourceArmStorageTableRead (f : Faults) (b : Backend) (d : ResourceData) :
    Except GoError Unit × ResourceData :=
  match f.resolverErr with
  | some e => (.error (.msg e), d)
  | none =>
    if !b.accountExists then
      (.ok (), { d with id := "" })
    else
      match f.queryErr with
      | some e => (.error (.msg s!"Failed to retrieve storage tables: {e}"), d)
      | none =>
        match b.tables.getLast? with
        | none => (.ok (), { d with id := "" })
        | some last =>
          if b.tables.any (fun t => t.name == d.name) then
            (.ok (), { d with name := last.name })
          else
            (.ok (), { d with id := "" })

/-- `resourceArmStorageTableCreate`: resolve the client (missing account
is an error here), list the tables, return the import signal if the name
is taken, otherwise create the table, set the id and fall through to
read. -/
def resourceArmStorageTableCreate (f : Faults) (b : Backend) (d : ResourceData) :
    Except GoError Unit × ResourceData × Backend :=
  match f.resolverErr with
  | some e => (.error (.msg e), d, b)
  | none =>
    if !b.accountExists then
      (.error (accountNotFoundErr d.storageAccountName), d, b)
    else
      match f.queryErr with
      | some e => (.error (.msg s!"Failed to retrieve storage tables: {e}"), d, b)
      | none =>
        if b.tables.any (fun t => t.name == d.name) then
          (.error (.importAsExists "azurerm_storage_table" d.name), d, b)
        else
          match f.createErr with
          | some e => (.error (.msg s!"Error creating table: {e}"), d, b)
          | none =>
            let b2 := { b with tables := b.tables ++ [{ name := d.name }] }
            let rd := resourceArmStorageTableRead f b2 { d with id := d.name }
            (rd.1, rd.2, b2)

/-- `resourceArmStorageTableDelete`: a missing account means the table
cannot exist, so the adapter succeeds; otherwise the raw `Table.Delete`
call is issued and any error is propagated. Vendor semantics: the raw
delete of an absent table fails with a 404 ResourceNotFound error
(contrast `DeleteIfExists`, which absorbs absence). -/
def resourceArmStorageTableDelete (f : Faults) (b : Backend) (d : ResourceData) :
    Except GoError Unit × ResourceData × Backend :=
  match f.resolverErr with
  | some e => (.error (.msg e), d, b)
  | none =>
    if !b.accountExists then
      (.ok (), d, b)
    else
      if b.tables.any (fun t => t.name == d.name) then
        match f.deleteErr with
        | some e => (.error (.msg s!"Error deleting storage table: {e}"), d, b)
        | none =>
          (.ok (), d, { b with tables := b.tables.filter (fun t => !(t.name == d.name)) })
      else
        (.error (.msg "Error deleting storage table: ResourceNotFound (404)"), d, b)

/- ## Storage queue adapter -/

/-- `resourceArmStorageQueueExists`: a missing account clears the id and
reports `false`; otherwise the queue's existence is queried, a missing
queue clears the id, and the existence boolean is returned. -/
def resourceArmStorageQueueExists (f : Faults) (b : Backend) (d : ResourceData) :
    Except GoError Bool × ResourceData :=
  match f.resolverErr with
  | some e => (.error (.msg e), d)
  | none =>
    if !b.accountExists then
      (.ok false, { d with id := "" })
    else
      match f.queryErr with
      | some e => (.error (.msg s!"error testing existence of storage queue: {e}"), d)
      | none =>
        if b.queues.contains d.name then
          (.ok true, d)
        else
          (.ok false, { d with id := "" })

/-- `resourceArmStorageQueueRead`: delegates to the exists adapter and
discards the boolean (a missing queue was already removed from state
there). -/
def resourceArmStorageQueueRead (f : Faults) (b : Backend) (d : ResourceData) :
    Except GoError Unit × ResourceData :=
  match resourceArmStorageQueueExists f b d with
  | (.error e, d2) => (.error e, d2)
  | (.ok _, d2) => (.ok (), d2)

/-- `resourceArmStorageQueueCreate`: resolve the client (missing account
is an error here), check existence, return the import signal if the queue
exists, otherwise create it, set the id and fall through to read. -/
def resourceArmStorageQueueCreate (f : Faults) (b : Backend) (d : ResourceData) :
    Except GoError Unit × ResourceData × Backend :=
  match f.resolverErr with
  | some e => (.error (.msg e), d, b)
  | none =>
    if !b.accountExists then
      (.error (accountNotFoundErr d.storageAccountName), d, b)
    else
      match f.queryErr with
      | some e => (.error (.msg s!"Error checking for the existence of queue: {e}"), d, b)
      | none =>
        if b.queues.contains d.name then
          (.error (.importAsExists "azurerm_storage_queue" d.name), d, b)
        else
          match f.createErr with
          | some e => (.error (.msg s!"Error creating storage queue on Azure: {e}"), d, b)
          | none =>
            let b2 := { b with queues := b.queues ++ [d.name] }
            let rd := resourceArmStorageQueueRead f b2 { d with id := d.name }
            (rd.1, rd.2, b2)

/-- `resourceArmStorageQueueDelete`: a missing account means success;
otherwise the raw `Queue.Delete` call is issued and any error is
propagated. Vendor semantics: the raw delete of an absent queue fails
with a 404 error. -/
def resourceArmStorageQueueDelete (f : Faults) (b : Backend) (d : ResourceData) :
    Except GoError Unit × ResourceData × Backend :=
  match f.resolverErr with
  | some e => (.error (.msg e), d, b)
  | none =>
    if !b.accountExists then
      (.ok (), d, b)
    else
      if b.queues.contains d.name then
        match f.deleteErr with
        | some e => (.error (.msg s!"Error deleting storage queue: {e}"), d, b)
        | none =>
          (.ok (), d, { b with queues := b.queues.filter (fun q => !(q == d.name)) })
      else
        (.error (.msg "Error deleting storage queue: ResourceNotFound (404)"), d, b)

/- ## Storage container adapter -/

/-- The `properties` map the container read adapter rebuilds, entry by
entry, from a listed container's fresh response fields. -/
def propsMapOf (c : Container) : ContainerProps :=
  { lastModified := c.properties.lastModified
    leaseStatus := c.properties.leaseStatus
    leaseState := c.properties.leaseState
    leaseDuration := c.properties.leaseDuration }

/-- `resourceArmStorageContainerRead`: resolve the client (missing account
clears the id and succeeds), then `ListContainers` restricted to names
beginning with the declared name (the listing's name filter, modelled on
the character lists). The loop marks `found` on each exact match and
rebuilds the `properties` map from that container's fresh response
fields, so after the loop the last exact match's properties are in
effect; no match clears the id and succeeds. -/
def resourceArmStorageContainerRead (f : Faults) (b : Backend) (d : ResourceData) :
    Except GoError Unit × ResourceData :=
  match f.resolverErr with
  | some e => (.error (.msg e), d)
  | none =>
    if !b.accountExists then
      (.ok (), { d with id := "" })
    else
      match f.queryErr with
      | some e => (.error (.msg s!"Failed to retrieve storage containers: {e}"), d)
      | none =>
        let listed := b.containers.filter (fun c => d.name.data.isPrefixOf c.name.data)
        match (listed.filter (fun c => c.name == d.name)).getLast? with
        | some c =>
          (.ok (), { d with properties := some (propsMapOf c) })
        | none => (.ok (), { d with id := "" })

/-- `resourceArmStorageContainerExists`: a missing account clears the id
and reports `false`; otherwise the container's existence is queried, a
missing container clears the id, and the existence boolean is
returned. -/
def resourceArmStorageContainerExists (f : Faults) (b : Backend) (d : ResourceData) :
    Except GoError Bool × ResourceData :=
  match f.resolverErr with
  | some e => (.error (.msg e), d)
  | none =>
    if !b.accountExists then
      (.ok false, { d with id := "" })
    else
      match f.queryErr with
      | some e => (.error (.msg s!"Error querying existence of storage container: {e}"), d)
      | none =>
        if b.containers.any (fun c => c.name == d.name) then
          (.ok true, d)
        else
          (.ok false, { d with id := "" })

/-- `resourceArmStorageContainerDelete`: a missing account means success;
otherwise `DeleteIfExists` is called, which by vendor semantics absorbs
absence (it reports whether anything was deleted and only fails on other
errors, injected as `f.deleteErr`). -/
def resourceArmStorageContainerDelete (f : Faults) (b : Backend) (d : ResourceData) :
    Except GoError Unit × ResourceData × Backend :=
  match f.resolverErr with
  | some e => (.error (.msg e), d, b)
  | none =>
    if !b.accountExists then
      (.ok (), d, b)
    else
      match f.deleteErr with
      | some e => (.error (.msg s!"Error deleting storage container: {e}"), d, b)
      | none =>
        (.ok (), d, { b with containers := b.containers.filter (fun c => !(c.name == d.name)) })

/-- The properties a freshly created container reports. -/
def newContainerProps : ContainerProps :=
  { lastModified := "", leaseStatus := "unlocked", leaseState := "available",
    leaseDuration := "" }

/-- `resourceArmStorageContainerCreate`: resolve the client (missing
account is an error here), compute the access type (`""` when the
declared access type is `private`), check existence, return the import
signal if the container exists, otherwise run the bounded retry around
`CreateIfNotExists`, set the permissions, set the id and fall through to
read. -/
def resourceArmStorageContainerCreate (f : Faults) (b : Backend) (d : ResourceData) :
    Except GoError Unit × ResourceData × Backend :=
  match f.resolverErr with
  | some e => (.error (.msg e), d, b)
  | none =>
    if !b.accountExists then
      (.error (accountNotFoundErr d.storageAccountName), d, b)
    else
      let _accessType :=
        if d.containerAccessType == "private" then "" else d.containerAccessType
      match f.queryErr with
      | some e => (.error (.msg s!"Error checking if container exists: {e}"), d, b)
      | none =>
        if b.containers.any (fun c => c.name == d.name) then
          (.error (.importAsExists "azurerm_storage_container" d.name), d, b)
        else
          match containerCreateRetry f.createAttemptErr with
          | .error e => (.error (.msg s!"Error creating container: {e}"), d, b)
          | .ok () =>
            let b2 := { b with containers :=
              b.containers ++ [{ name := d.name, properties := newContainerProps }] }
            match f.permErr with
            | some e => (.error (.msg s!"Error setting permissions for container: {e}"), d, b2)
            | none =>
              let rd := resourceArmStorageContainerRead f b2 { d with id := d.name }
              (rd.1, rd.2, b2)

/- ## Data lake store file adapter

This resource has no account resolver: the adapters use the data lake
files client directly, so there is no `accountExists` branch. -/

/-- The local declared record for the data lake store file resource. -/
structure FileData where
  id : String := ""
  accountName : String := ""
  remoteFilePath : String := ""
  localFilePath : String := ""
deriving Repr, DecidableEq

/-- The remote data lake file system (paths present) together with the
local file system the create adapter reads from (path, byte contents). -/
structure DataLakeState where
  files : List String := []
  localFiles : List (String × List Nat) := []
deriving Repr, DecidableEq

/-- Injected outcomes for the data lake adapter's external calls. -/
structure FileFaults where
  readErr : Option String := none
  createErr : Option String := none
  statusErr : Option String := none
  deleteErr : Option String := none
deriving Repr, DecidableEq

/-- All external calls behave normally. -/
def noFileFaults : FileFaults := {}

/-- The error the vendor returns for a create with `overwrite = false`
against an existing remote file. -/
def dataLakeFileExistsMsg : String :=
  "Error issuing create request for Data Lake Store File: file already exists"

/-- `resourceArmDataLakeStoreFileRead`: `GetFileStatus` on the id (wired
to the remote path on create); a 404 clears the id and succeeds, any
other error (injected) is propagated, an existing file leaves the record
untouched. -/
def resourceArmDataLakeStoreFileRead (f : FileFaults) (st : DataLakeState) (d : FileData) :
    Except GoError Unit × FileData :=
  match f.statusErr with
  | some e => (.error (.msg s!"Error making Read request on Azure Data Lake Store File: {e}"), d)
  | none =>
    if st.files.contains d.id then
      (.ok (), d)
    else
      (.ok (), { d with id := "" })

/-- `resourceArmDataLakeStoreFileCreate`: the import guard (a
`GetFileStatus` check before creating) is commented out in the source, so
creation proceeds with no pre-existence check: the local file is opened
and read in full, then a single create call with `overwrite = false` is
issued; by vendor semantics that call fails when the remote file already
exists, and the adapter wraps the failure as an ordinary error. On
success the id is set to the remote path and the adapter falls through to
read. -/
def resourceArmDataLakeStoreFileCreate (f : FileFaults) (st : DataLakeState) (d : FileData) :
    Except GoError Unit × FileData × DataLakeState :=
  match st.localFiles.lookup d.localFilePath with
  | none => (.error (.msg s!"error opening file"), d, st)
  | some _contents =>
    match f.readErr with
    | some e => (.error (.msg e), d, st)
    | none =>
      if st.files.contains d.remoteFilePath then
        (.error (.msg dataLakeFileExistsMsg), d, st)
      else
        match f.createErr with
        | some e =>
          (.error (.msg s!"Error issuing create request for Data Lake Store File: {e}"), d, st)
        | none =>
          let st2 := { st with files := st.files ++ [d.remoteFilePath] }
          let rd := resourceArmDataLakeStoreFileRead f st2 { d with id := d.remoteFilePath }
          (rd.1, rd.2, st2)

/-- `resourceArmDataLakeStoreFileDelete`: the delete call's 404 response
for an absent file is detected by `response.WasNotFound` and turned into
success; other errors (injected) are propagated. -/
def resourceArmDataLakeStoreFileDelete (f : FileFaults) (st : DataLakeState) (d : FileData) :
    Except GoError Unit × FileData × DataLakeState :=
  if st.files.contains d.id then
    match f.deleteErr with
    | some e =>
      (.error (.msg s!"Error issuing delete request for Data Lake Store File: {e}"), d, st)
    | none =>
      (.ok (), d, { st with files := st.files.filter (fun p => !(p == d.id)) })
  else
    (.ok (), d, st)

/- ## Helper lemmas -/

/-- Appending one element on the right: `any` becomes a disjunction. -/
theorem any_concat {α} (l : List α) (x : α) (p : α → Bool) :
    (l ++ [x]).any p = (l.any p || p x) := by
  simp [List.any_append]

/-- The last element of a list with one element appended. -/
theorem getLast?_concat_eq {α} (l : List α) (x : α) : (l ++ [x]).getLast? = some x := by
  simp [List.getLast?_concat]

/-- A list with its element appended on the right contains it. -/
theorem contains_concat_self {α} [BEq α] [LawfulBEq α] (l : List α) (x : α) :
    (l ++ [x]).contains x = true := by
  simp

/-- A predicate that holds nowhere filters to the empty list. -/
theorem filter_eq_nil_of_any_false {α} (l : List α) (p : α → Bool) (h : l.any p = false) :
    l.filter p = [] := by
  rw [List.filter_eq_nil_iff]
  intro a ha
  rw [List.any_eq_false] at h
  exact h a ha

/-- Filtering out elements that are not there changes nothing. -/
theorem filter_not_of_any_false {α} (l : List α) (p : α → Bool) (h : l.any p = false) :
    l.filter (fun x => !(p x)) = l := by
  rw [List.any_eq_false] at h
  induction l with
  | nil => rfl
  | cons a t ih =>
    have ha : p a = false := by
      have := h a (List.mem_cons_self a t)
      simpa using this
    simp only [List.filter_cons, ha]
    simp [ih fun x hx => h x (List.mem_cons_of_mem a hx)]

/-- Filtering out an element that is not there changes nothing. -/
theorem filter_out_not_mem {α} [BEq α] [LawfulBEq α] (x : α) :
    ∀ (l : List α), x ∉ l → l.filter (fun y => !(y == x)) = l := by
  intro l
  induction l with
  | nil => intro _; rfl
  | cons a t ih =>
    intro hm
    have ha : (a == x) = false := by
      refine beq_eq_false_iff_ne.mpr ?_
      intro h
      exact hm (by rw [← h]; exact List.mem_cons_self a t)
    simp [List.filter_cons, ha, ih fun hx => hm (List.mem_cons_of_mem a hx)]

/-- The last element of a one-element list. -/
theorem getLast?_singleton {α} (x : α) : ([x] : List α).getLast? = some x := rfl

/-- Every list begins with itself. -/
theorem isPrefixOf_self_list {α} [BEq α] [LawfulBEq α] (l : List α) :
    l.isPrefixOf l = true := by
  induction l with
  | nil => rfl
  | cons a t ih => simp [List.isPrefixOf, ih]

/-- Restricting a listing to names that begin with `n` does not change
which containers are named exactly `n`. -/
theorem filter_beginsWith_filter_eq (n : String) (l : List Container) :
    (l.filter (fun c => n.data.isPrefixOf c.name.data)).filter (fun c => c.name == n)
      = l.filter (fun c => c.name == n) := by
  induction l with
  | nil => rfl
  | cons a t ih =>
    by_cases h : a.name = n
    · have hb : (a.name == n) = true := beq_iff_eq.mpr h
      have hp : n.data.isPrefixOf a.name.data = true := by
        rw [h]; exact isPrefixOf_self_list _
      simp only [List.filter_cons, hb, hp]
      simp [ih, hb]
    · have hb : (a.name == n) = false := beq_eq_false_iff_ne.mpr h
      cases hp : n.data.isPrefixOf a.name.data with
      | true => simp only [List.filter_cons, hb, hp]; simp [ih, hb]
      | false => simp only [List.filter_cons, hb, hp]; simp [ih]

/-- If every attempt before the k-th fails and the k-th succeeds, and k is
within the remaining budget, the retry loop around
`checkContainerIsCreated` succeeds. -/
theorem containerRetry_ok_aux (a : Nat → Option String) :
    ∀ (fuel i k : Nat), k < fuel → (∀ j, j < k → a (i + j) ≠ none) → a (i + k) = none →
      resourceRetry (fun n => checkContainerIsCreated (a n)) i fuel = .ok () := by
  intro fuel
  induction fuel with
  | zero =>
    intro i k hk _ _
    exact absurd hk (Nat.not_lt_zero k)
  | succ f ih =>
    intro i k hk hfail hok
    cases hai : a i with
    | none =>
      simp [resourceRetry, checkContainerIsCreated, hai]
    | some e =>
      have hk0 : k ≠ 0 := by
        intro h0
        rw [h0, Nat.add_zero, hai] at hok
        cases hok
      have hstep : resourceRetry (fun n => checkContainerIsCreated (a n)) i (f + 1)
          = resourceRetry (fun n => checkContainerIsCreated (a n)) (i + 1) f := by
        simp [resourceRetry, checkContainerIsCreated, hai]
      rw [hstep]
      refine ih (i + 1) (k - 1) (by omega) ?_ ?_
      · intro j hj
        have h2 : i + 1 + j = i + (j + 1) := by omega
        rw [h2]
        exact hfail (j + 1) (by omega)
      · have h2 : i + 1 + (k - 1) = i + k := by omega
        rw [h2]
        exact hok

/-- If every attempt within the remaining budget fails, the retry loop
around `checkContainerIsCreated` reports the timeout error. -/
theorem containerRetry_timeout_aux (a : Nat → Option String) :
    ∀ (fuel i : Nat), (∀ j, j < fuel → a (i + j) ≠ none) →
      resourceRetry (fun n => checkContainerIsCreated (a n)) i fuel
        = .error retryTimeoutMsg := by
  intro fuel
  induction fuel with
  | zero => intro i _; rfl
  | succ f ih =>
    intro i hfail
    have h0 : a i ≠ none := by
      have := hfail 0 (Nat.succ_pos f)
      rwa [Nat.add_zero] at this
    cases hai : a i with
    | none => exact absurd hai h0
    | some e =>
      have hstep : resourceRetry (fun n => checkContainerIsCreated (a n)) i (f + 1)
          = resourceRetry (fun n => checkContainerIsCreated (a n)) (i + 1) f := by
        simp [resourceRetry, checkContainerIsCreated, hai]
      rw [hstep]
      refine ih (i + 1) ?_
      intro j hj
      have h2 : i + 1 + j = i + (j + 1) := by omega
      rw [h2]
      exact hfail (j + 1) (by omega)

/-- The retry loop's result depends only on the attempts within the
remaining budget: outcome functions that agree there give the same
result (no attempt beyond the budget is ever consulted). -/
theorem resourceRetry_congr_aux (o1 o2 : Nat → Option RetryError) :
    ∀ (fuel i : Nat), (∀ j, j < fuel → o1 (i + j) = o2 (i + j)) →
      resourceRetry o1 i fuel = resourceRetry o2 i fuel := by
  intro fuel
  induction fuel with
  | zero => intro i _; rfl
  | succ f ih =>
    intro i hagree
    have h0 : o1 i = o2 i := by
      have := hagree 0 (Nat.succ_pos f)
      rwa [Nat.add_zero] at this
    have hrest : ∀ j, j < f → o1 (i + 1 + j) = o2 (i + 1 + j) := by
      intro j hj
      have h2 : i + 1 + j = i + (j + 1) := by omega
      rw [h2]
      exact hagree (j + 1) (by omega)
    cases ho : o2 i with
    | none => simp [resourceRetry, h0, ho]
    | some r =>
      cases r with
      | retryable e =>
        have := ih (i + 1) hrest
        simp [resourceRetry, h0, ho, this]
      | nonRetryable e => simp [resourceRetry, h0, ho]

/- ## Claim theorems -/

/-- C1 (amended): for the storage table, queue and container adapters,
invoking Create when a remote object with the same identity already
exists returns the distinct `ImportAsExistsError` signal and leaves both
the local record and the remote state untouched. (The data lake store
file adapter is excluded: its import guard is commented out in the
source, so its Create issues the create call with no pre-existence
check.) -/
theorem create_existing_returns_import_signal :
    (∀ b d, b.accountExists = true →
        b.tables.any (fun t => t.name == d.name) = true →
        resourceArmStorageTableCreate noFaults b d
          = (.error (.importAsExists "azurerm_storage_table" d.name), d, b)) ∧
    (∀ b d, b.accountExists = true → b.queues.contains d.name = true →
        resourceArmStorageQueueCreate noFaults b d
          = (.error (.importAsExists "azurerm_storage_queue" d.name), d, b)) ∧
    (∀ b d, b.accountExists = true →
        b.containers.any (fun c => c.name == d.name) = true →
        resourceArmStorageContainerCreate noFaults b d
          = (.error (.importAsExists "azurerm_storage_container" d.name), d, b)) := by
  refine ⟨?_, ?_, ?_⟩ <;> intro b d hacct hex
  · simp [resourceArmStorageTableCreate, noFaults, hacct, hex]
  · have hmem : d.name ∈ b.queues := by simpa using hex
    simp [resourceArmStorageQueueCreate, noFaults, hacct, hmem]
  · simp [resourceArmStorageContainerCreate, noFaults, hacct, hex]

/-- Witness for C1: a concrete pre-populated backend. -/
theorem create_existing_returns_import_signal_witness :
    resourceArmStorageTableCreate noFaults
        { accountExists := true, tables := [{ name := "t1" }] }
        { name := "t1", storageAccountName := "sa" }
      = (.error (.importAsExists "azurerm_storage_table" "t1"),
         { name := "t1", storageAccountName := "sa" },
         { accountExists := true, tables := [{ name := "t1" }] }) :=
  create_existing_returns_import_signal.1 _ _ rfl (by decide)

/-- C1 counterexample: the data lake store file Create, invoked while the
remote file already exists, does not return the `ImportAsExistsError`
signal — it proceeds to the create call (here failing with the vendor's
ordinary already-exists error, wrapped as a plain message). -/
theorem data_lake_create_existing_no_import_signal_cex :
    (resourceArmDataLakeStoreFileCreate noFileFaults
        { files := ["dir/f.txt"], localFiles := [("local.txt", [104, 105])] }
        { accountName := "acct1", remoteFilePath := "dir/f.txt",
          localFilePath := "local.txt" }).1
      = .error (.msg dataLakeFileExistsMsg) ∧
    isImportAsExistsError
      (resourceArmDataLakeStoreFileCreate noFileFaults
        { files := ["dir/f.txt"], localFiles := [("local.txt", [104, 105])] }
        { accountName := "acct1", remoteFilePath := "dir/f.txt",
          localFilePath := "local.txt" }).1 = false :=
  ⟨rfl, rfl⟩

/-- C2 (amended): Delete is idempotent with respect to an absent owning
account for the table, queue and container resources, and with respect to
an absent object for the container resource (whose `DeleteIfExists`
absorbs absence) and the data lake store file resource (whose delete
treats a 404 response as success). The table and queue adapters, by
contrast, propagate the raw SDK delete error when the object itself is
absent (see the counterexample). -/
theorem delete_idempotent_where_handled :
    (∀ b d, b.accountExists = false →
        resourceArmStorageTableDelete noFaults b d = (.ok (), d, b)) ∧
    (∀ b d, b.accountExists = false →
        resourceArmStorageQueueDelete noFaults b d = (.ok (), d, b)) ∧
    (∀ b d, b.accountExists = false →
        resourceArmStorageContainerDelete noFaults b d = (.ok (), d, b)) ∧
    (∀ b d, b.accountExists = true →
        b.containers.any (fun c => c.name == d.name) = false →
        resourceArmStorageContainerDelete noFaults b d = (.ok (), d, b)) ∧
    (∀ st d, st.files.contains d.id = false →
        resourceArmDataLakeStoreFileDelete noFileFaults st d = (.ok (), d, st)) := by
  refine ⟨?_, ?_, ?_, ?_, ?_⟩
  · intro b d hacct
    simp [resourceArmStorageTableDelete, noFaults, hacct]
  · intro b d hacct
    simp [resourceArmStorageQueueDelete, noFaults, hacct]
  · intro b d hacct
    simp [resourceArmStorageContainerDelete, noFaults, hacct]
  · intro b d hacct habs
    simp [resourceArmStorageContainerDelete, noFaults, hacct,
      filter_not_of_any_false _ _ habs]
    rw [← hacct]
  · intro st d habs
    have hmem : d.id ∉ st.files := by simpa using habs
    simp [resourceArmDataLakeStoreFileDelete, noFileFaults, hmem]

/-- Witness for C2: deleting a container that is already absent, in an
existing account, succeeds and changes nothing. -/
theorem delete_idempotent_where_handled_witness :
    resourceArmStorageContainerDelete noFaults
        { accountExists := true, containers := [] }
        { name := "c1", storageAccountName := "sa" }
      = (.ok (), { name := "c1", storageAccountName := "sa" },
         { accountExists := true, containers := [] }) :=
  delete_idempotent_where_handled.2.2.2.1 _ _ rfl (by decide)

/-- C2 counterexample: deleting a storage table that is already absent
(account present) returns an error — the adapter propagates the raw SDK
delete failure instead of treating absence as success. -/
theorem table_delete_absent_object_errors_cex :
    (resourceArmStorageTableDelete noFaults { accountExists := true, tables := [] }
        { name := "t1", storageAccountName := "sa" }).1
      = .error (.msg "Error deleting storage table: ResourceNotFound (404)") :=
  rfl

/-- C3 (amended): when the client resolver reports
`accountExists = false`, the Read, Exists and Delete adapters of the
table, queue and container resources treat it as nothing to do — Read and
Exists clear the local identifier, and all three return success — but the
Create adapters fail with the `Storage Account Not Found` error rather
than succeeding. -/
theorem account_missing_nothing_to_do :
    (∀ b d, b.accountExists = false →
        resourceArmStorageTableRead noFaults b d = (.ok (), { d with id := "" })) ∧
    (∀ b d, b.accountExists = false →
        resourceArmStorageTableDelete noFaults b d = (.ok (), d, b)) ∧
    (∀ b d, b.accountExists = false →
        resourceArmStorageQueueRead noFaults b d = (.ok (), { d with id := "" })) ∧
    (∀ b d, b.accountExists = false →
        resourceArmStorageQueueExists noFaults b d = (.ok false, { d with id := "" })) ∧
    (∀ b d, b.accountExists = false →
        resourceArmStorageQueueDelete noFaults b d = (.ok (), d, b)) ∧
    (∀ b d, b.accountExists = false →
        resourceArmStorageContainerRead noFaults b d = (.ok (), { d with id := "" })) ∧
    (∀ b d, b.accountExists = false →
        resourceArmStorageContainerExists noFaults b d = (.ok false, { d with id := "" })) ∧
    (∀ b d, b.accountExists = false →
        resourceArmStorageContainerDelete noFaults b d = (.ok (), d, b)) ∧
    (∀ b d, b.accountExists = false →
        (resourceArmStorageTableCreate noFaults b d).1
          = .error (accountNotFoundErr d.storageAccountName)) ∧
    (∀ b d, b.accountExists = false →
        (resourceArmStorageQueueCreate noFaults b d).1
          = .error (accountNotFoundErr d.storageAccountName)) ∧
    (∀ b d, b.accountExists = false →
        (resourceArmStorageContainerCreate noFaults b d).1
          = .error (accountNotFoundErr d.storageAccountName)) := by
  refine ⟨?_, ?_, ?_, ?_, ?_, ?_, ?_, ?_, ?_, ?_, ?_⟩ <;> intro b d hacct
  · simp [resourceArmStorageTableRead, noFaults, hacct]
  · simp [resourceArmStorageTableDelete, noFaults, hacct]
  · simp [resourceArmStorageQueueRead, resourceArmStorageQueueExists, noFaults, hacct]
  · simp [resourceArmStorageQueueExists, noFaults, hacct]
  · simp [resourceArmStorageQueueDelete, noFaults, hacct]
  · simp [resourceArmStorageContainerRead, noFaults, hacct]
  · simp [resourceArmStorageContainerExists, noFaults, hacct]
  · simp [resourceArmStorageContainerDelete, noFaults, hacct]
  · simp [resourceArmStorageTableCreate, noFaults, hacct]
  · simp [resourceArmStorageQueueCreate, noFaults, hacct]
  · simp [resourceArmStorageContainerCreate, noFaults, hacct]

/-- Witness for C3: reading a table whose owning account is gone clears
the identifier and succeeds. -/
theorem account_missing_nothing_to_do_witness :
    resourceArmStorageTableRead noFaults { accountExists := false }
        { id := "t1", name := "t1", storageAccountName := "sa" }
      = (.ok (), { id := "", name := "t1", storageAccountName := "sa" }) :=
  account_missing_nothing_to_do.1 _ _ rfl

/-- C3 counterexample: Create, invoked while the resolver reports the
account missing, fails with the `Storage Account Not Found` error instead
of succeeding with nothing to do. -/
theorem create_account_missing_errors_cex :
    (resourceArmStorageTableCreate noFaults { accountExists := false }
        { name := "t1", storageAccountName := "sa" }).1
      = .error (accountNotFoundErr "sa") :=
  rfl

/-- C4 (amended): each validator checks its rules independently and
appends one message per violated rule, so a name violating exactly one
rule yields exactly that rule's message (stated for every single-rule
violation of the queue validator's five rules and the container
validator's three rules); the queue name `"-abc"` yields only the
leading-hyphen error and `"abc-"` only the trailing-hyphen error. The
name `"Ab"`, however, violates both the lowercase character-set rule and
the minimum-length rule, and yields both messages (see the
counterexample). -/
theorem validator_single_rule_messages :
    (∀ v k, matchesLowerAlnumHyphenPlus v = false → startsWithHyphen v = false →
        endsWithHyphen v = false → ¬v.utf8ByteSize > 63 → ¬v.utf8ByteSize < 3 →
        validateArmStorageQueueName v k = [queueCharsetMsg k]) ∧
    (∀ v k, matchesLowerAlnumHyphenPlus v = true → startsWithHyphen v = true →
        endsWithHyphen v = false → ¬v.utf8ByteSize > 63 → ¬v.utf8ByteSize < 3 →
        validateArmStorageQueueName v k = [queueStartHyphenMsg k]) ∧
    (∀ v k, matchesLowerAlnumHyphenPlus v = true → startsWithHyphen v = false →
        endsWithHyphen v = true → ¬v.utf8ByteSize > 63 → ¬v.utf8ByteSize < 3 →
        validateArmStorageQueueName v k = [queueEndHyphenMsg k]) ∧
    (∀ v k, matchesLowerAlnumHyphenPlus v = true → startsWithHyphen v = false →
        endsWithHyphen v = false → v.utf8ByteSize > 63 → ¬v.utf8ByteSize < 3 →
        validateArmStorageQueueName v k = [queueMaxLenMsg k]) ∧
    (∀ v k, matchesLowerAlnumHyphenPlus v = true → startsWithHyphen v = false →
        endsWithHyphen v = false → ¬v.utf8ByteSize > 63 → v.utf8ByteSize < 3 →
        validateArmStorageQueueName v k = [queueMinLenMsg k]) ∧
    (∀ v k, containerNameRegexMatches v = false →
        ¬(v.utf8ByteSize < 3 || v.utf8ByteSize > 63) = true → startsWithHyphen v = false →
        validateArmStorageContainerName v k = [containerCharsetMsg k v]) ∧
    (∀ v k, containerNameRegexMatches v = true →
        (v.utf8ByteSize < 3 || v.utf8ByteSize > 63) = true → startsWithHyphen v = false →
        validateArmStorageContainerName v k = [containerLengthMsg k v]) ∧
    (∀ v k, containerNameRegexMatches v = true →
        ¬(v.utf8ByteSize < 3 || v.utf8ByteSize > 63) = true → startsWithHyphen v = true →
        validateArmStorageContainerName v k = [containerHyphenMsg k v]) ∧
    (∀ k, validateArmStorageQueueName "-abc" k = [queueStartHyphenMsg k]) ∧
    (∀ k, validateArmStorageQueueName "abc-" k = [queueEndHyphenMsg k]) := by
  refine ⟨?_, ?_, ?_, ?_, ?_, ?_, ?_, ?_, ?_, ?_⟩
  · intro v k h1 h2 h3 h4 h5
    simp [validateArmStorageQueueName, h1, h2, h3, h4, h5]
  · intro v k h1 h2 h3 h4 h5
    simp [validateArmStorageQueueName, h1, h2, h3, h4, h5]
  · intro v k h1 h2 h3 h4 h5
    simp [validateArmStorageQueueName, h1, h2, h3, h4, h5]
  · intro v k h1 h2 h3 h4 h5
    simp [validateArmStorageQueueName, h1, h2, h3, h4, h5]
  · intro v k h1 h2 h3 h4 h5
    simp [validateArmStorageQueueName, h1, h2, h3, h4, h5]
  · intro v k h1 h2 h3
    simp [validateArmStorageContainerName, h1, h2, h3]
  · intro v k h1 h2 h3
    simp [validateArmStorageContainerName, h1, h2, h3]
  · intro v k h1 h2 h3
    simp [validateArmStorageContainerName, h1, h2, h3]
  · intro k
    simp [validateArmStorageQueueName,
      (by decide : matchesLowerAlnumHyphenPlus "-abc" = true),
      (by decide : startsWithHyphen "-abc" = true),
      (by decide : endsWithHyphen "-abc" = false),
      (by decide : ("-abc" : String).utf8ByteSize = 4)]
  · intro k
    simp [validateArmStorageQueueName,
      (by decide : matchesLowerAlnumHyphenPlus "abc-" = true),
      (by decide : startsWithHyphen "abc-" = false),
      (by decide : endsWithHyphen "abc-" = true),
      (by decide : ("abc-" : String).utf8ByteSize = 4)]

/-- Witness for C4: the name `"a@c"` violates only the character-set rule
of the queue validator and yields exactly that message. -/
theorem validator_single_rule_messages_witness :
    validateArmStorageQueueName "a@c" "name" = [queueCharsetMsg "name"] :=
  validator_single_rule_messages.1 "a@c" "name" (by decide) (by decide) (by decide)
    (by decide) (by decide)

/-- C4 counterexample: the name `"Ab"` is claimed to yield only a length
error and no charset error, but the queue validator reports both the
character-set violation (uppercase letters are outside `[a-z0-9-]`) and
the minimum-length violation. -/
theorem queue_validator_Ab_two_errors_cex :
    validateArmStorageQueueName "Ab" "name"
      = [queueCharsetMsg "name", queueMinLenMsg "name"] := by
  decide

/-- C10: the container name validator accepts the literal `"$root"` with
an empty error list, although `'$'` is outside the
lowercase-alphanumeric-and-hyphen class; for every other input the
character-set rule applies unchanged (the error list is exactly the one
computed with the plain character-class test, the remaining rules being
untouched). -/
theorem container_validator_root_special_case :
    validateArmStorageContainerName "$root" "name" = [] ∧
    ∀ v k, v ≠ "$root" →
      validateArmStorageContainerName v k =
        (if !matchesLowerAlnumHyphenPlus v then [containerCharsetMsg k v] else [])
          ++ (if v.utf8ByteSize < 3 || v.utf8ByteSize > 63 then [containerLengthMsg k v]
              else [])
          ++ (if startsWithHyphen v then [containerHyphenMsg k v] else []) := by
  refine ⟨by decide, ?_⟩
  intro v k hv
  have hb : (v == "$root") = false := beq_eq_false_iff_ne.mpr hv
  simp [validateArmStorageContainerName, containerNameRegexMatches, hb]

/-- Witness for C10: for `"My"` (not `"$root"`) the charset rule fires as
usual, alongside the length rule. -/
theorem container_validator_root_special_case_witness :
    validateArmStorageContainerName "My" "name"
      = [containerCharsetMsg "name" "My", containerLengthMsg "name" "My"] := by
  have h := container_validator_root_special_case.2 "My" "name" (by decide)
  simpa using h

/-- C5: the container-creation retry wrapper treats every failure of the
`CreateIfNotExists` call as retryable; a success within the 120-second
budget (after any number of failures) gives overall success; failures
spanning the whole budget give the fatal timeout error; and the result
never depends on any attempt beyond the budget — outcome functions that
agree within the budget give identical results, so no further attempts
are made once it elapses. -/
theorem container_retry_budget :
    (∀ e, checkContainerIsCreated (some e) = some (RetryError.retryable e)) ∧
    (∀ a k, k < retryBudgetSeconds → (∀ j, j < k → a j ≠ none) → a k = none →
        containerCreateRetry a = .ok ()) ∧
    (∀ a, (∀ j, j < retryBudgetSeconds → a j ≠ none) →
        containerCreateRetry a = .error retryTimeoutMsg) ∧
    (∀ a1 a2, (∀ j, j < retryBudgetSeconds → a1 j = a2 j) →
        containerCreateRetry a1 = containerCreateRetry a2) := by
  refine ⟨fun e => rfl, ?_, ?_, ?_⟩
  · intro a k hk hfail hok
    refine containerRetry_ok_aux a retryBudgetSeconds 0 k hk ?_ ?_
    · intro j hj
      rw [Nat.zero_add]
      exact hfail j hj
    · rw [Nat.zero_add]
      exact hok
  · intro a hfail
    refine containerRetry_timeout_aux a retryBudgetSeconds 0 ?_
    intro j hj
    rw [Nat.zero_add]
    exact hfail j hj
  · intro a1 a2 hagree
    refine resourceRetry_congr_aux _ _ retryBudgetSeconds 0 ?_
    intro j hj
    rw [Nat.zero_add]
    simp [checkContainerIsCreated, hagree j hj]

/-- Witness for C5: two transient failures followed by a success within
the budget give overall success. -/
theorem container_retry_budget_witness :
    containerCreateRetry (fun n => if n < 2 then some "transient" else none) = .ok () :=
  container_retry_budget.2.1 _ 2 (by decide) (by decide) rfl

/-- C6: for every resource kind, Read invoked while the remote object is
missing clears the local identifier and succeeds (table, queue, container
and data lake store file adapters); Read invoked while the object is
present succeeds, keeps the identifier, and (for the container) rewrites
the `properties` map from the fresh response fields (the queue Read,
which delegates to Exists, leaves the record untouched). -/
theorem read_missing_clears_present_refreshes :
    (∀ b d, b.accountExists = true →
        b.tables.any (fun t => t.name == d.name) = false →
        resourceArmStorageTableRead noFaults b d = (.ok (), { d with id := "" })) ∧
    (∀ b d, b.accountExists = true →
        b.tables.any (fun t => t.name == d.name) = true →
        (resourceArmStorageTableRead noFaults b d).1 = .ok () ∧
        (resourceArmStorageTableRead noFaults b d).2.id = d.id) ∧
    (∀ b d, b.accountExists = true → b.queues.contains d.name = false →
        resourceArmStorageQueueRead noFaults b d = (.ok (), { d with id := "" })) ∧
    (∀ b d, b.accountExists = true → b.queues.contains d.name = true →
        resourceArmStorageQueueRead noFaults b d = (.ok (), d)) ∧
    (∀ b d, b.accountExists = true →
        b.containers.filter (fun c => c.name == d.name) = [] →
        resourceArmStorageContainerRead noFaults b d = (.ok (), { d with id := "" })) ∧
    (∀ b d c, b.accountExists = true →
        b.containers.filter (fun c => c.name == d.name) = [c] →
        resourceArmStorageContainerRead noFaults b d
          = (.ok (), { d with properties := some (propsMapOf c) })) ∧
    (∀ st d, st.files.contains d.id = false →
        resourceArmDataLakeStoreFileRead noFileFaults st d = (.ok (), { d with id := "" })) ∧
    (∀ st d, st.files.contains d.id = true →
        resourceArmDataLakeStoreFileRead noFileFaults st d = (.ok (), d)) := by
  refine ⟨?_, ?_, ?_, ?_, ?_, ?_, ?_, ?_⟩
  · intro b d hacct habs
    cases htl : b.tables.getLast? with
    | none => simp [resourceArmStorageTableRead, noFaults, hacct, htl]
    | some last => simp [resourceArmStorageTableRead, noFaults, hacct, htl, habs]
  · intro b d hacct hany
    cases htl : b.tables.getLast? with
    | none =>
      rw [List.getLast?_eq_none_iff] at htl
      rw [htl] at hany
      cases hany
    | some last =>
      constructor <;> simp [resourceArmStorageTableRead, noFaults, hacct, htl, hany]
  · intro b d hacct habs
    have hmem : d.name ∉ b.queues := by simpa using habs
    simp [resourceArmStorageQueueRead, resourceArmStorageQueueExists, noFaults,
      hacct, hmem]
  · intro b d hacct hpres
    have hmem : d.name ∈ b.queues := by simpa using hpres
    simp [resourceArmStorageQueueRead, resourceArmStorageQueueExists, noFaults,
      hacct, hmem]
  · intro b d hacct hnil
    simp only [resourceArmStorageContainerRead, noFaults, hacct, Bool.not_true,
      Bool.false_eq_true, if_false, filter_beginsWith_filter_eq, hnil,
      List.getLast?_nil]
  · intro b d c hacct hone
    simp only [resourceArmStorageContainerRead, noFaults, hacct, Bool.not_true,
      Bool.false_eq_true, if_false, filter_beginsWith_filter_eq, hone,
      getLast?_singleton]
  · intro st d habs
    have hmem : d.id ∉ st.files := by simpa using habs
    simp [resourceArmDataLakeStoreFileRead, noFileFaults, hmem]
  · intro st d hpres
    have hmem : d.id ∈ st.files := by simpa using hpres
    simp [resourceArmDataLakeStoreFileRead, noFileFaults, hmem]

/-- Witness for C6: reading a missing table clears the identifier and
succeeds. -/
theorem read_missing_clears_present_refreshes_witness :
    resourceArmStorageTableRead noFaults
        { accountExists := true, tables := [{ name := "other" }] }
        { id := "t1", name := "t1" }
      = (.ok (), { id := "", name := "t1" }) :=
  read_missing_clears_present_refreshes.1 _ _ rfl (by decide)

/-- C7: for the queue and container resources, Exists (account present)
returns exactly the remote presence boolean, clears the local identifier
when the object is missing, and leaves the record unchanged when it is
present; with the account itself missing it reports `false` and clears
the identifier. -/
theorem exists_reflects_remote_presence :
    (∀ b d, b.accountExists = true →
        (resourceArmStorageQueueExists noFaults b d).1 = .ok (b.queues.contains d.name) ∧
        (resourceArmStorageQueueExists noFaults b d).2
          = (if b.queues.contains d.name then d else { d with id := "" })) ∧
    (∀ b d, b.accountExists = true →
        (resourceArmStorageContainerExists noFaults b d).1
          = .ok (b.containers.any (fun c => c.name == d.name)) ∧
        (resourceArmStorageContainerExists noFaults b d).2
          = (if b.containers.any (fun c => c.name == d.name) then d
             else { d with id := "" })) ∧
    (∀ b d, b.accountExists = false →
        resourceArmStorageQueueExists noFaults b d = (.ok false, { d with id := "" })) ∧
    (∀ b d, b.accountExists = false →
        resourceArmStorageContainerExists noFaults b d
          = (.ok false, { d with id := "" })) := by
  refine ⟨?_, ?_, ?_, ?_⟩
  · intro b d hacct
    by_cases hq : d.name ∈ b.queues <;>
      simp [resourceArmStorageQueueExists, noFaults, hacct, hq]
  · intro b d hacct
    cases hc : b.containers.any (fun c => c.name == d.name) <;>
      simp [resourceArmStorageContainerExists, noFaults, hacct, hc]
  · intro b d hacct
    simp [resourceArmStorageQueueExists, noFaults, hacct]
  · intro b d hacct
    simp [resourceArmStorageContainerExists, noFaults, hacct]

/-- Witness for C7: an existing queue is reported present with the record
untouched. -/
theorem exists_reflects_remote_presence_witness :
    (resourceArmStorageQueueExists noFaults
        { accountExists := true, queues := ["q1"] } { id := "q1", name := "q1" }).1
      = .ok true :=
  (exists_reflects_remote_presence.1
    { accountExists := true, queues := ["q1"] } { id := "q1", name := "q1" } rfl).1

/-- C8: for each resource kind, a successful Create (account present,
object initially absent, all calls normal) runs the trailing Read and
leaves the local identifier equal to the declared name (the declared
table, queue or container name, or the declared remote file path). -/
theorem create_then_read_sets_identifier :
    (∀ b d, b.accountExists = true →
        b.tables.any (fun t => t.name == d.name) = false →
        (resourceArmStorageTableCreate noFaults b d).1 = .ok () ∧
        (resourceArmStorageTableCreate noFaults b d).2.1.id = d.name) ∧
    (∀ b d, b.accountExists = true → b.queues.contains d.name = false →
        (resourceArmStorageQueueCreate noFaults b d).1 = .ok () ∧
        (resourceArmStorageQueueCreate noFaults b d).2.1.id = d.name) ∧
    (∀ b d, b.accountExists = true →
        b.containers.any (fun c => c.name == d.name) = false →
        (resourceArmStorageContainerCreate noFaults b d).1 = .ok () ∧
        (resourceArmStorageContainerCreate noFaults b d).2.1.id = d.name) ∧
    (∀ st d bytes, st.localFiles.lookup d.localFilePath = some bytes →
        st.files.contains d.remoteFilePath = false →
        (resourceArmDataLakeStoreFileCreate noFileFaults st d).1 = .ok () ∧
        (resourceArmDataLakeStoreFileCreate noFileFaults st d).2.1.id
          = d.remoteFilePath) := by
  refine ⟨?_, ?_, ?_, ?_⟩
  · intro b d hacct habs
    constructor <;>
      simp [resourceArmStorageTableCreate, resourceArmStorageTableRead, noFaults,
        hacct, habs, getLast?_concat_eq, any_concat]
  · intro b d hacct habs
    have hmem : d.name ∉ b.queues := by simpa using habs
    constructor <;>
      simp [resourceArmStorageQueueCreate, resourceArmStorageQueueRead,
        resourceArmStorageQueueExists, noFaults, hacct, hmem]
  · intro b d hacct habs
    have hretry : containerCreateRetry (fun _ => none) = .ok () := rfl
    have hfil : b.containers.filter (fun c => c.name == d.name) = [] :=
      filter_eq_nil_of_any_false _ _ habs
    constructor <;>
      simp [resourceArmStorageContainerCreate, resourceArmStorageContainerRead,
        noFaults, hacct, habs, hretry, filter_beginsWith_filter_eq,
        List.filter_append, hfil, getLast?_concat_eq]
  · intro st d bytes hlocal habs
    have hmem : d.remoteFilePath ∉ st.files := by simpa using habs
    constructor <;>
      simp [resourceArmDataLakeStoreFileCreate, resourceArmDataLakeStoreFileRead,
        noFileFaults, hlocal, hmem]

/-- Witness for C8: creating a queue in a fresh account ends with the
identifier set to the declared name. -/
theorem create_then_read_sets_identifier_witness :
    (resourceArmStorageQueueCreate noFaults { accountExists := true }
        { name := "q1", storageAccountName := "sa" }).1 = .ok () ∧
    (resourceArmStorageQueueCreate noFaults { accountExists := true }
        { name := "q1", storageAccountName := "sa" }).2.1.id = "q1" :=
  create_then_read_sets_identifier.2.1 { accountExists := true }
    { name := "q1", storageAccountName := "sa" } rfl (by decide)

/-- C9: whenever at least one table in the query response matches the
declared name, table Read writes the `Name` of the final element of the
response into the `name` field (the Go loop aliases the reused range
variable, which after the loop holds the final element), and the written
value equals the declared name exactly when that final element is itself
a match. -/
theorem table_read_writes_last_response_name (b : Backend) (d : ResourceData)
    (last : Table) (hacct : b.accountExists = true)
    (hmatch : b.tables.any (fun t => t.name == d.name) = true)
    (hlast : b.tables.getLast? = some last) :
    (resourceArmStorageTableRead noFaults b d).2.name = last.name ∧
    ((resourceArmStorageTableRead noFaults b d).2.name = d.name ↔ last.name = d.name) := by
  simp [resourceArmStorageTableRead, noFaults, hacct, hlast, hmatch]

/-- Witness for C9: the declared name `"a"` matches the first of two
tables, yet the `name` written back is that of the final table `"b"`. -/
theorem table_read_writes_last_response_name_witness :
    (resourceArmStorageTableRead noFaults
        { accountExists := true, tables := [{ name := "a" }, { name := "b" }] }
        { id := "a", name := "a" }).2.name = "b" :=
  (table_read_writes_last_response_name
    { accountExists := true, tables := [{ name := "a" }, { name := "b" }] }
    { id := "a", name := "a" } { name := "b" } rfl (by decide) rfl).1

end AzureRM
